import Mathlib

/-!
Verification of the Hangman game API (`src/Hangman/api.py`).

The embedding models the `Game` record (from the data model) and the
`make_move` endpoint of `HangmanApi`, together with the memcache-backed
average-attempts computation.  Python strings become Lean `String`s,
Python integers become `Int`/`Nat`, the JSON-encoded history string
becomes a list of (guess, message) pairs, and the two ways the endpoint
can fail (raising `endpoints.BadRequestException` versus returning the
exception object as the response, as `make_move` does on a finished
game) are kept apart in the `MoveOutcome` type.  `make_move` returns the
final state of the game record next to the outcome; on every error path
the Python code raises (or returns) before any field of the record has
been mutated, which the embedding reflects by returning the input record
unchanged there.

`models.py` (holding `Game.new_game`, `Game.end_game`,
`Game.word_progress`) is not part of the sources; those three functions
are modelled from the spec and marked as such in their doc comments.
-/

namespace Hangman

/-- The `Game` entity: target word, guessed letter positions (indices into
the target), attempts remaining, over/won flags, and the move history as
(guess, message) pairs (the JSON string encoding is abstracted away). -/
structure Game where
  target : String
  guessed_letters : List Nat
  attempts_remaining : Int
  game_over : Bool
  won : Bool
  history : List (String × String)
deriving DecidableEq

/-- Outcome of a `make_move` call: a normal `game.to_form(msg)` response,
a `BadRequestException` returned as the response value (as the
game-already-over branch does), or a raised `BadRequestException`. -/
inductive MoveOutcome where
  | form (msg : String)
  | returnedError (msg : String)
  | raisedError (msg : String)
deriving DecidableEq

/-- Python `str.isalpha`: non-empty and every character alphabetic
(restricted to ASCII, which covers the words and guesses in play). -/
def pyIsAlpha (s : String) : Bool :=
  !s.data.isEmpty && s.data.all Char.isAlpha

/-- Python `str.upper` (ASCII), used to state case normalization. -/
def pyUpper (s : String) : String :=
  String.mk (s.data.map Char.toUpper)

/-- The helper `updateHistory(game, guess, msg)` of api.py: append the
pair to the history and persist the record. -/
def updateHistory (game : Game) (guess msg : String) : Game :=
  { game with history := game.history ++ [(guess, msg)] }

/-- Modelled from the spec: `Game.end_game` lives in the absent
`models.py`.  Per the spec, the terminal states `WON`/`LOST` both map to
`game_over = true`, with `won` recording which one. -/
def end_game (game : Game) (winner : Bool) : Game :=
  { game with game_over := true, won := winner }

/-- Modelled from the spec: `Game.word_progress` lives in the absent
`models.py`.  Per the spec masking rule: for each index i of the target,
show target[i] if i is in guessed_letters, else the placeholder `_`,
joined in order. -/
def word_progress (game : Game) : String :=
  String.mk (game.target.data.enum.map
    (fun p => if game.guessed_letters.contains p.1 then p.2 else '_'))

/-- Modelled from the spec: `Game.new_game` lives in the absent
`models.py`.  A fresh game has a target from the word source, no guessed
positions, the caller-chosen attempts budget, both flags false, and an
empty history. -/
def new_game (target : String) (attempts : Int) : Game :=
  { target := target
    guessed_letters := []
    attempts_remaining := attempts
    game_over := false
    won := false
    history := [] }

/-- The letter loop of `make_move` (api.py lines 181-184):
`for i, c in enumerate(game.target): if guess.upper() == c and i not in
game.guessed_letters: game.guessed_letters.append(i); letterInWord = True`.
`u` is the upper-cased guess character, `i` the current index, `guessed`
the accumulating list, `liw` the `letterInWord` flag. -/
def guessLoop (u : Char) : List Char → Nat → List Nat → Bool → List Nat × Bool
  | [], _, guessed, liw => (guessed, liw)
  | c :: rest, i, guessed, liw =>
    if u = c ∧ i ∉ guessed then
      guessLoop u rest (i + 1) (guessed ++ [i]) true
    else
      guessLoop u rest (i + 1) guessed liw

/-- The tail of `make_move` after the single-letter loop (api.py lines
190-209): the all-positions-guessed win check, the hit/miss message and
decrement, and the loss check.  `game1` is the record with the loop's
updated `guessed_letters`, `letterInWord` the loop's flag. -/
def move_after_letter (game1 : Game) (guess : String) (letterInWord : Bool) :
    Game × MoveOutcome :=
  if game1.guessed_letters.length = game1.target.length then
    let msg := "You win! Word was " ++ word_progress game1
    (end_game (updateHistory game1 guess msg) true, MoveOutcome.form msg)
  else
    let tmpl := if letterInWord then "Letter was in the word! Word progress: "
                else "Letter was not in the word! Word progress: "
    let game2 : Game :=
      if letterInWord then game1
      else { game1 with attempts_remaining := game1.attempts_remaining - 1 }
    if game2.attempts_remaining < 1 then
      (end_game (updateHistory game2 guess "Game over!") false,
        MoveOutcome.form "Game over!")
    else
      let msg := tmpl ++ word_progress game2
      (updateHistory game2 guess msg, MoveOutcome.form msg)

/-- The `make_move` endpoint (api.py lines 166-209), returning the final
state of the game record together with the response outcome. -/
def make_move (game : Game) (guess : String) : Game × MoveOutcome :=
  if game.game_over then
    (game, MoveOutcome.returnedError "Game is already over!")
  else if pyIsAlpha guess then
    if guess = game.target then
      let msg := "You win! Word was " ++ game.target
      (end_game (updateHistory game guess msg) true, MoveOutcome.form msg)
    else if guess.length = 1 then
      let r := guessLoop (guess.data.headD ' ').toUpper game.target.data 0
                 game.guessed_letters false
      move_after_letter { game with guessed_letters := r.1 } guess r.2
    else
      (game, MoveOutcome.raisedError "Guess must be a single character or the word!")
  else
    (game, MoveOutcome.raisedError "Guess must be all letters!")

/-- A sequence of `make_move` calls against one game record, each call
feeding its resulting record to the next (errors leave it unchanged). -/
def play_moves (game : Game) (guesses : List String) : Game :=
  guesses.foldl (fun g s => (make_move g s).1) game

/-- Well-formedness of a game record, as established at creation and
preserved by every move (`gameOk_new_game`, `gameOk_make_move`):
guessed positions are distinct valid indices into the target, a game
still in progress has at least one unrevealed position, the target is
non-empty and stored upper-case (consistent with the `guess.upper() == c`
comparison, per the spec's case-normalization policy for the word
source). -/
def GameOk (g : Game) : Prop :=
  g.guessed_letters.Nodup ∧
  (∀ i ∈ g.guessed_letters, i < g.target.length) ∧
  (g.game_over = false → g.guessed_letters.length < g.target.length) ∧
  g.target.data.all (fun c => c.toUpper = c) = true ∧
  0 < g.target.length

instance (g : Game) : Decidable (GameOk g) := by
  unfold GameOk; infer_instance

/-- The `_cache_average_attempts` task (api.py lines 262-272), with the
memcache cell modelled as `Option ℚ` holding the cached average (the
display-string formatting of the value is abstracted away).  When no
active game exists the function does not touch the cache. -/
def cache_average_attempts (games : List Game) (cache : Option ℚ) : Option ℚ :=
  let active := games.filter (fun g => g.game_over = false)
  if active.isEmpty then cache
  else
    some ((active.map (fun g => (g.attempts_remaining : ℚ))).sum /
      (active.length : ℚ))

/-- The arithmetic mean, following the spec's words ("arithmetic mean of
attempts_remaining across all games where game_over == false"), for
comparison with `cache_average_attempts`. -/
def arithmeticMean (xs : List ℚ) : ℚ := xs.sum / (xs.length : ℚ)

/-- State of the spec's PERU scenario after the guess "P". -/
def peruGame1 : Game :=
  { target := "PERU", guessed_letters := [0], attempts_remaining := 5,
    game_over := false, won := false,
    history := [("P", "Letter was in the word! Word progress: P___")] }

/-- State of the spec's PERU scenario after the guesses "P", "X". -/
def peruGame2 : Game :=
  { peruGame1 with
    attempts_remaining := 4,
    history := peruGame1.history ++
      [("X", "Letter was not in the word! Word progress: P___")] }

/-- State of the spec's PERU scenario after the guesses "P", "X", "E". -/
def peruGame3 : Game :=
  { peruGame2 with
    guessed_letters := [0, 1],
    history := peruGame2.history ++
      [("E", "Letter was in the word! Word progress: PE__")] }

/-- State of the spec's PERU scenario after the guesses "P", "X", "E", "R". -/
def peruGame4 : Game :=
  { peruGame3 with
    guessed_letters := [0, 1, 2],
    history := peruGame3.history ++
      [("R", "Letter was in the word! Word progress: PER_")] }

/-- Final state of the spec's PERU scenario, after the winning guess "U". -/
def peruGame5 : Game :=
  { peruGame4 with
    guessed_letters := [0, 1, 2, 3],
    game_over := true,
    won := true,
    history := peruGame4.history ++ [("U", "You win! Word was PERU")] }

/-! ### Supporting lemmas about the letter loop -/

/-- If every position of the target whose character equals the upper-cased
guess is already guessed, the loop changes nothing and `letterInWord`
stays as it was. -/
theorem guessLoop_no_new (u : Char) (cs : List Char) (i : Nat) (guessed : List Nat) (liw : Bool)
    (h : ∀ p ∈ cs.enumFrom i, p.2 = u → p.1 ∈ guessed) :
    guessLoop u cs i guessed liw = (guessed, liw) := by
  induction cs generalizing i with
  | nil => rfl
  | cons c rest ih =>
    have hrest : ∀ p ∈ rest.enumFrom (i + 1), p.2 = u → p.1 ∈ guessed := by
      intro p hp
      exact h p (by simp [List.enumFrom_cons, hp])
    simp only [guessLoop]
    rw [if_neg]
    · exact ih (i + 1) hrest
    · rintro ⟨huc, hni⟩
      exact hni (h (i, c) (by simp [List.enumFrom_cons]) huc.symm)

/-- The loop preserves distinctness of the guessed positions and any
bound that covers the remaining indices. -/
theorem guessLoop_invariant (u : Char) (cs : List Char) (n : Nat) :
    ∀ (i : Nat) (guessed : List Nat) (liw : Bool),
    guessed.Nodup → (∀ j ∈ guessed, j < n) → i + cs.length ≤ n →
    (guessLoop u cs i guessed liw).1.Nodup ∧
      ∀ j ∈ (guessLoop u cs i guessed liw).1, j < n := by
  induction cs with
  | nil => intro i guessed liw h1 h2 _; exact ⟨h1, h2⟩
  | cons c rest ih =>
    intro i guessed liw h1 h2 h3
    simp only [List.length_cons] at h3
    simp only [guessLoop]
    split
    · rename_i hcond
      refine ih (i + 1) (guessed ++ [i]) true ?_ ?_ (by omega)
      · simp [List.nodup_append, h1, hcond.2]
      · intro j hj
        rcases List.mem_append.1 hj with hj | hj
        · exact h2 j hj
        · simp at hj; omega
    · exact ih (i + 1) guessed liw h1 h2 (by omega)

/-- A duplicate-free list of indices below `n` has at most `n` elements. -/
theorem length_le_of_nodup_lt {l : List Nat} {n : Nat} (h1 : l.Nodup) (h2 : ∀ j ∈ l, j < n) :
    l.length ≤ n := by
  classical
  have hsub : l.toFinset ⊆ Finset.range n := by
    intro j hj
    simp only [List.mem_toFinset] at hj
    simpa using h2 j hj
  have hc := Finset.card_le_card hsub
  rwa [List.toFinset_card_of_nodup h1, Finset.card_range] at hc

/-! ### Supporting lemmas about `make_move` -/

/-- The post-loop continuation never changes the target word. -/
theorem move_after_letter_target (g1 : Game) (s : String) (liw : Bool) :
    (move_after_letter g1 s liw).1.target = g1.target := by
  simp only [move_after_letter]
  cases liw <;> repeat' split <;> simp_all [end_game, updateHistory]

/-- The post-loop continuation never changes the guessed positions. -/
theorem move_after_letter_guessed (g1 : Game) (s : String) (liw : Bool) :
    (move_after_letter g1 s liw).1.guessed_letters = g1.guessed_letters := by
  simp only [move_after_letter]
  cases liw <;> repeat' split <;> simp_all [end_game, updateHistory]

/-- `make_move` never changes the target word. -/
theorem make_move_target (g : Game) (s : String) : (make_move g s).1.target = g.target := by
  simp only [make_move]
  repeat' split
  case isFalse.isTrue.isFalse.isTrue => rw [move_after_letter_target]
  all_goals rfl

/-- `make_move` keeps the guessed positions a duplicate-free list of
valid indices into the target. -/
theorem make_move_nodup_bounded (g : Game) (s : String)
    (h1 : g.guessed_letters.Nodup)
    (h2 : ∀ i ∈ g.guessed_letters, i < g.target.length) :
    (make_move g s).1.guessed_letters.Nodup ∧
      ∀ i ∈ (make_move g s).1.guessed_letters, i < g.target.length := by
  have hg := guessLoop_invariant ((s.data.headD ' ').toUpper) g.target.data g.target.length 0
    g.guessed_letters false h1 h2 (by rw [Nat.zero_add, String.length_data])
  simp only [make_move]
  repeat' split
  case isFalse.isTrue.isFalse.isTrue =>
    rw [move_after_letter_guessed]
    exact hg
  all_goals exact ⟨h1, h2⟩

/-- A single-letter guess that reveals no new position: the whole-word
branch cannot fire, the loop leaves the guessed positions alone, and the
move is processed as a miss (decrement, one history entry, loss when the
budget runs out). -/
theorem make_move_miss (g : Game) (guess : String)
    (hover : g.game_over = false)
    (halpha : pyIsAlpha guess = true)
    (hlen : guess.length = 1)
    (hlt : g.guessed_letters.length < g.target.length)
    (hupper : g.target.data.all (fun c => c.toUpper = c) = true)
    (hno : ∀ p ∈ g.target.data.enum, p.2 = (guess.data.headD ' ').toUpper →
      p.1 ∈ g.guessed_letters) :
    (make_move g guess).1.target = g.target ∧
    (make_move g guess).1.guessed_letters = g.guessed_letters ∧
    (make_move g guess).1.attempts_remaining = g.attempts_remaining - 1 ∧
    (∃ m, (make_move g guess).2 = MoveOutcome.form m ∧
      (make_move g guess).1.history = g.history ++ [(guess, m)]) ∧
    (g.attempts_remaining - 1 < 1 →
      (make_move g guess).1.game_over = true ∧ (make_move g guess).1.won = false ∧
      (make_move g guess).2 = MoveOutcome.form "Game over!") ∧
    (¬ g.attempts_remaining - 1 < 1 →
      (make_move g guess).1.game_over = false) := by
  have hne : guess ≠ g.target := by
    intro heq
    have hT1 : g.target.data.length = 1 := by
      have hlen' := hlen
      rw [heq] at hlen'
      rwa [String.length_data]
    have hg0 : g.guessed_letters = [] := by
      have hlt' := hlt
      rw [← String.length_data, hT1] at hlt'
      exact List.length_eq_zero.mp (by omega)
    obtain ⟨c, hc⟩ := List.length_eq_one.mp hT1
    have hcu : c.toUpper = c := by
      simp [hc, List.all_eq_true] at hupper
      exact hupper
    have hhead : guess.data.headD ' ' = c := by
      rw [heq]
      simp [hc]
    have h0 := hno (0, c) (by simp [hc, List.enum]) (by rw [hhead, hcu])
    simp [hg0] at h0
  have hloop : guessLoop (guess.data.headD ' ').toUpper g.target.data 0 g.guessed_letters false
      = (g.guessed_letters, false) :=
    guessLoop_no_new _ _ _ _ _ hno
  have hmm : make_move g guess = move_after_letter g guess false := by
    unfold make_move
    rw [if_neg (by simp [hover]), if_pos halpha, if_neg hne, if_pos hlen, hloop]
  rw [hmm]
  have hnewin : ¬ (g.guessed_letters.length = g.target.length) := Nat.ne_of_lt hlt
  by_cases hatt : g.attempts_remaining - 1 < 1
  · have h2 : move_after_letter g guess false =
        (end_game (updateHistory { g with attempts_remaining := g.attempts_remaining - 1 }
          guess "Game over!") false, MoveOutcome.form "Game over!") := by
      simp [move_after_letter, hnewin, hatt]
    rw [h2]
    exact ⟨rfl, rfl, rfl, ⟨"Game over!", rfl, rfl⟩, fun _ => ⟨rfl, rfl, rfl⟩,
      fun h => absurd hatt h⟩
  · have h2 : move_after_letter g guess false =
        (updateHistory { g with attempts_remaining := g.attempts_remaining - 1 } guess
          ("Letter was not in the word! Word progress: " ++
            word_progress { g with attempts_remaining := g.attempts_remaining - 1 }),
         MoveOutcome.form ("Letter was not in the word! Word progress: " ++
            word_progress { g with attempts_remaining := g.attempts_remaining - 1 })) := by
      simp [move_after_letter, hnewin, hatt]
    rw [h2]
    exact ⟨rfl, rfl, rfl, ⟨_, rfl, rfl⟩, fun h => absurd h hatt, fun _ => hover⟩

/-- Every game the API creates is well-formed. -/
theorem gameOk_new_game (target : String) (attempts : Int)
    (hupper : target.data.all (fun c => c.toUpper = c) = true)
    (hpos : 0 < target.length) :
    GameOk (new_game target attempts) := by
  refine ⟨List.nodup_nil, by simp [new_game], ?_, hupper, hpos⟩
  intro _
  simpa [new_game] using hpos

/-- The post-loop continuation either ends the game or leaves the
over-flag alone; in the latter case the all-guessed win check was false. -/
theorem move_after_letter_over_or_ne (g1 : Game) (s : String) (liw : Bool) :
    (move_after_letter g1 s liw).1.game_over = true ∨
      ((move_after_letter g1 s liw).1.game_over = g1.game_over ∧
        g1.guessed_letters.length ≠ g1.target.length) := by
  simp only [move_after_letter]
  cases liw <;> repeat' split <;> simp_all [end_game, updateHistory]

/-- A game that is still in progress after a move has strictly fewer
guessed positions than the target has characters. -/
theorem make_move_inprogress_lt (g : Game) (s : String)
    (h1 : g.guessed_letters.Nodup)
    (h2 : ∀ i ∈ g.guessed_letters, i < g.target.length)
    (h3 : g.game_over = false → g.guessed_letters.length < g.target.length) :
    (make_move g s).1.game_over = false →
      (make_move g s).1.guessed_letters.length < g.target.length := by
  have hnb := make_move_nodup_bounded g s h1 h2
  have hle : (make_move g s).1.guessed_letters.length ≤ g.target.length :=
    length_le_of_nodup_lt hnb.1 hnb.2
  intro hov
  by_cases hgo : g.game_over = true
  · have he : make_move g s = (g, MoveOutcome.returnedError "Game is already over!") := by
      simp [make_move, hgo]
    rw [he] at hov
    rw [hov] at hgo
    cases hgo
  · have hgo' : g.game_over = false := by
      simpa using hgo
    by_cases hal : pyIsAlpha s = true
    · by_cases heq : s = g.target
      · have he : make_move g s =
            (end_game (updateHistory g s ("You win! Word was " ++ g.target)) true,
              MoveOutcome.form ("You win! Word was " ++ g.target)) := by
          unfold make_move
          rw [if_neg (by simp [hgo']), if_pos hal, if_pos heq]
        rw [he] at hov
        simp [end_game, updateHistory] at hov
      · by_cases hl1 : s.length = 1
        · have hmm : make_move g s =
              move_after_letter
                { g with guessed_letters :=
                    (guessLoop (s.data.headD ' ').toUpper g.target.data 0
                      g.guessed_letters false).1 } s
                (guessLoop (s.data.headD ' ').toUpper g.target.data 0
                  g.guessed_letters false).2 := by
            unfold make_move
            rw [if_neg (by simp [hgo']), if_pos hal, if_neg heq, if_pos hl1]
          rcases move_after_letter_over_or_ne
              { g with guessed_letters :=
                  (guessLoop (s.data.headD ' ').toUpper g.target.data 0
                    g.guessed_letters false).1 } s
              (guessLoop (s.data.headD ' ').toUpper g.target.data 0
                g.guessed_letters false).2 with hL | ⟨_, hL2⟩
          · rw [hmm] at hov
            rw [hov] at hL
            cases hL
          · rw [hmm] at hle ⊢
            rw [move_after_letter_guessed] at hle ⊢
            exact lt_of_le_of_ne hle (by simpa using hL2)
        · have he : make_move g s =
              (g, MoveOutcome.raisedError "Guess must be a single character or the word!") := by
            unfold make_move
            rw [if_neg (by simp [hgo']), if_pos hal, if_neg heq, if_neg hl1]
          rw [he]
          exact h3 hgo'
    · have he : make_move g s = (g, MoveOutcome.raisedError "Guess must be all letters!") := by
        unfold make_move
        rw [if_neg (by simp [hgo']), if_neg hal]
      rw [he]
      exact h3 hgo'

/-- Well-formedness of the game record is preserved by every move. -/
theorem gameOk_make_move (g : Game) (s : String) (h : GameOk g) : GameOk (make_move g s).1 := by
  obtain ⟨h1, h2, h3, h4, h5⟩ := h
  have ht := make_move_target g s
  have hnb := make_move_nodup_bounded g s h1 h2
  refine ⟨hnb.1, ?_, ?_, ?_, ?_⟩
  · rw [ht]
    exact hnb.2
  · intro hov
    rw [ht]
    exact make_move_inprogress_lt g s h1 h2 h3 hov
  · rw [ht]
    exact h4
  · rw [ht]
    exact h5

/-- Distinctness and validity of the guessed positions are preserved by
every sequence of moves, and the target never changes. -/
theorem play_moves_nodup_bounded (guesses : List String) :
    ∀ (g : Game), g.guessed_letters.Nodup →
    (∀ i ∈ g.guessed_letters, i < g.target.length) →
    (play_moves g guesses).guessed_letters.Nodup ∧
      (∀ i ∈ (play_moves g guesses).guessed_letters,
        i < (play_moves g guesses).target.length) := by
  induction guesses with
  | nil => intro g h1 h2; exact ⟨h1, h2⟩
  | cons s rest ih =>
    intro g h1 h2
    have hnb := make_move_nodup_bounded g s h1 h2
    have ht := make_move_target g s
    simp only [play_moves, List.foldl_cons]
    exact ih (make_move g s).1 hnb.1 (by rw [ht]; exact hnb.2)

/-! ### The claims -/

/-- C1: for every Game with `game_over = true` and every guess string,
`make_move` fails with the game-already-over error (the
`BadRequestException` the code hands back to the caller) and every field
of the Game — target, guessed_letters, attempts_remaining, game_over,
won, history — is left unchanged. -/
theorem c1_game_over_rejects_unchanged (g : Game) (guess : String)
    (h : g.game_over = true) :
    make_move g guess = (g, MoveOutcome.returnedError "Game is already over!") := by
  simp [make_move, h]

/-- Witness for C1: a concrete finished game and guess. -/
theorem c1_witness :
    make_move
      { target := "PERU", guessed_letters := [0], attempts_remaining := 2,
        game_over := true, won := false,
        history := [("P", "Letter was in the word! Word progress: P___")] } "E"
    = ({ target := "PERU", guessed_letters := [0], attempts_remaining := 2,
         game_over := true, won := false,
         history := [("P", "Letter was in the word! Word progress: P___")] },
       MoveOutcome.returnedError "Game is already over!") :=
  c1_game_over_rejects_unchanged _ "E" rfl

/-- Counterexample to C2 as stated: the guess "peru" is alphabetic and
case-normalizes to the target "PERU" of a fresh non-terminal game, yet
`make_move` rejects it with the wrong-length error instead of
transitioning to WON — the whole-word comparison in the code is
case-sensitive. -/
theorem c2_counterexample :
    pyUpper "peru" = (new_game "PERU" 5).target ∧
    (new_game "PERU" 5).game_over = false ∧
    pyIsAlpha "peru" = true ∧
    make_move (new_game "PERU" 5) "peru"
      = (new_game "PERU" 5,
          MoveOutcome.raisedError "Guess must be a single character or the word!") := by
  refine ⟨?_, rfl, rfl, ?_⟩ <;> decide

/-- C2 amended: for every non-terminal Game and every alphabetic guess
exactly equal to the full target (the whole-word comparison is
case-sensitive; no case normalization is applied to it), `make_move`
transitions the game to WON immediately, regardless of
attempts_remaining, with message "You win! Word was {target}". -/
theorem c2_exact_whole_word_wins (g : Game) (guess : String)
    (hover : g.game_over = false)
    (halpha : pyIsAlpha guess = true)
    (heq : guess = g.target) :
    make_move g guess =
      ({ g with
          game_over := true,
          won := true,
          history := g.history ++ [(guess, "You win! Word was " ++ g.target)] },
        MoveOutcome.form ("You win! Word was " ++ g.target)) := by
  unfold make_move
  rw [if_neg (by simp [hover]), if_pos halpha, if_pos heq]
  rfl

/-- Witness for the amended C2: the whole word wins even with a zero
attempts budget. -/
theorem c2_witness :
    make_move
      { target := "PERU", guessed_letters := [], attempts_remaining := 0,
        game_over := false, won := false, history := [] } "PERU"
    = ({ target := "PERU", guessed_letters := [], attempts_remaining := 0,
         game_over := true, won := true,
         history := [("PERU", "You win! Word was PERU")] },
       MoveOutcome.form "You win! Word was PERU") :=
  c2_exact_whole_word_wins _ "PERU" rfl rfl rfl

/-- C3: starting from a fresh game with target "PERU" and 5 attempts, the
guess sequence P, X, E, R, U produces masked progress P___ (attempts 5),
P___ (attempts 4), PE__ (attempts 4), PER_ (attempts 4), and finally the
WON state with a message containing "PERU". -/
theorem c3_peru_scenario :
    make_move (new_game "PERU" 5) "P"
      = (peruGame1, MoveOutcome.form "Letter was in the word! Word progress: P___") ∧
    word_progress peruGame1 = "P___" ∧ peruGame1.attempts_remaining = 5 ∧
    make_move peruGame1 "X"
      = (peruGame2, MoveOutcome.form "Letter was not in the word! Word progress: P___") ∧
    word_progress peruGame2 = "P___" ∧ peruGame2.attempts_remaining = 4 ∧
    make_move peruGame2 "E"
      = (peruGame3, MoveOutcome.form "Letter was in the word! Word progress: PE__") ∧
    word_progress peruGame3 = "PE__" ∧ peruGame3.attempts_remaining = 4 ∧
    make_move peruGame3 "R"
      = (peruGame4, MoveOutcome.form "Letter was in the word! Word progress: PER_") ∧
    word_progress peruGame4 = "PER_" ∧ peruGame4.attempts_remaining = 4 ∧
    make_move peruGame4 "U" = (peruGame5, MoveOutcome.form "You win! Word was PERU") ∧
    peruGame5.game_over = true ∧ peruGame5.won = true ∧
    (∃ a b, "You win! Word was PERU" = a ++ "PERU" ++ b) := by
  refine ⟨?_, ?_, ?_, ?_, ?_, ?_, ?_, ?_, ?_, ?_, ?_, ?_, ?_, ?_, ?_,
    "You win! Word was ", "", ?_⟩ <;> decide

/-- C4: for every well-formed non-terminal Game and every single
alphabetic letter whose every match position in the target is already
guessed (in particular a letter matching no position at all),
`make_move` decrements attempts_remaining by exactly 1 and appends
exactly one entry to the history. -/
theorem c4_unmatched_letter_decrements (g : Game) (guess : String)
    (hok : GameOk g)
    (hover : g.game_over = false)
    (halpha : pyIsAlpha guess = true)
    (hlen : guess.length = 1)
    (hno : ∀ p ∈ g.target.data.enum, p.2 = (guess.data.headD ' ').toUpper →
      p.1 ∈ g.guessed_letters) :
    (make_move g guess).1.attempts_remaining = g.attempts_remaining - 1 ∧
    ∃ m, (make_move g guess).1.history = g.history ++ [(guess, m)] := by
  obtain ⟨-, -, h3, h4, -⟩ := hok
  obtain ⟨-, -, hatt, ⟨m, -, hh⟩, -, -⟩ :=
    make_move_miss g guess hover halpha hlen (h3 hover) h4 hno
  exact ⟨hatt, m, hh⟩

/-- Witness for C4: guessing "Z" against "PERU" (no match) costs one
attempt and appends one history entry. -/
theorem c4_witness :
    (make_move
      { target := "PERU", guessed_letters := [0], attempts_remaining := 5,
        game_over := false, won := false, history := [] } "Z").1.attempts_remaining
      = 4 ∧
    ∃ m, (make_move
      { target := "PERU", guessed_letters := [0], attempts_remaining := 5,
        game_over := false, won := false, history := [] } "Z").1.history
      = [("Z", m)] :=
  c4_unmatched_letter_decrements _ "Z" (by decide) rfl rfl rfl (by decide)

/-- C5: for every well-formed non-terminal Game with exactly one attempt
left, a single-letter guess revealing no new position drives
attempts_remaining to 0, the state to LOST (game_over true, won false),
and returns the message "Game over!", all within the same call. -/
theorem c5_last_miss_loses (g : Game) (guess : String)
    (hok : GameOk g)
    (hover : g.game_over = false)
    (hatt1 : g.attempts_remaining = 1)
    (halpha : pyIsAlpha guess = true)
    (hlen : guess.length = 1)
    (hno : ∀ p ∈ g.target.data.enum, p.2 = (guess.data.headD ' ').toUpper →
      p.1 ∈ g.guessed_letters) :
    (make_move g guess).1.attempts_remaining = 0 ∧
    (make_move g guess).1.game_over = true ∧
    (make_move g guess).1.won = false ∧
    (make_move g guess).2 = MoveOutcome.form "Game over!" := by
  obtain ⟨-, -, h3, h4, -⟩ := hok
  obtain ⟨-, -, hatt, -, hlost, -⟩ :=
    make_move_miss g guess hover halpha hlen (h3 hover) h4 hno
  have hc : g.attempts_remaining - 1 < 1 := by
    rw [hatt1]
    norm_num
  obtain ⟨ho, hw, hm⟩ := hlost hc
  refine ⟨?_, ho, hw, hm⟩
  rw [hatt, hatt1]
  norm_num

/-- Witness for C5: the spec's CHAD scenario — one attempt left, miss
with "Z", game lost. -/
theorem c5_witness :
    (make_move
      { target := "CHAD", guessed_letters := [], attempts_remaining := 1,
        game_over := false, won := false, history := [] } "Z").1.attempts_remaining
      = 0 ∧
    (make_move
      { target := "CHAD", guessed_letters := [], attempts_remaining := 1,
        game_over := false, won := false, history := [] } "Z").1.game_over = true ∧
    (make_move
      { target := "CHAD", guessed_letters := [], attempts_remaining := 1,
        game_over := false, won := false, history := [] } "Z").1.won = false ∧
    (make_move
      { target := "CHAD", guessed_letters := [], attempts_remaining := 1,
        game_over := false, won := false, history := [] } "Z").2
      = MoveOutcome.form "Game over!" :=
  c5_last_miss_loses _ "Z" (by decide) rfl rfl rfl rfl (by decide)

/-- C6: starting from any Game whose guessed positions are distinct valid
indices (as at creation), after any sequence of `make_move` calls the
number of guessed positions never exceeds the length of the target. -/
theorem c6_guessed_bounded_by_target (g : Game) (guesses : List String)
    (h1 : g.guessed_letters.Nodup)
    (h2 : ∀ i ∈ g.guessed_letters, i < g.target.length) :
    (play_moves g guesses).guessed_letters.length ≤
      (play_moves g guesses).target.length := by
  obtain ⟨hn, hb⟩ := play_moves_nodup_bounded guesses g h1 h2
  exact length_le_of_nodup_lt hn hb

/-- Witness for C6: a fresh PERU game played through four guesses. -/
theorem c6_witness :
    (play_moves (new_game "PERU" 5) ["P", "Z", "P", "E"]).guessed_letters.length ≤
      (play_moves (new_game "PERU" 5) ["P", "Z", "P", "E"]).target.length :=
  c6_guessed_bounded_by_target (new_game "PERU" 5) ["P", "Z", "P", "E"]
    (by decide) (by decide)

/-- Counterexample to C7 as stated: against a Game that is already over,
the non-alphabetic guess "12" is rejected with the game-already-over
error, not with the invalid-input error "Guess must be all letters!" —
the `game_over` check runs first. -/
theorem c7_counterexample :
    (∃ c ∈ ("12" : String).data, ¬ c.isAlpha) ∧
    (make_move
      { target := "PERU", guessed_letters := [], attempts_remaining := 3,
        game_over := true, won := false, history := [] } "12").2
      = MoveOutcome.returnedError "Game is already over!" ∧
    MoveOutcome.returnedError "Game is already over!" ≠
      MoveOutcome.raisedError "Guess must be all letters!" := by
  refine ⟨⟨'1', by decide, by decide⟩, by decide, by decide⟩

/-- C7 amended: for every non-terminal Game and every guess containing a
non-alphabetic character, `make_move` fails with the invalid-input error
"Guess must be all letters!", no history entry is appended and every
field of the game is unchanged. -/
theorem c7_nonalpha_rejected_unchanged (g : Game) (guess : String)
    (hover : g.game_over = false)
    (hc : ∃ c ∈ guess.data, ¬ c.isAlpha) :
    make_move g guess = (g, MoveOutcome.raisedError "Guess must be all letters!") := by
  have hall : guess.data.all Char.isAlpha = false := by
    rw [List.all_eq_false]
    obtain ⟨c, hc1, hc2⟩ := hc
    exact ⟨c, hc1, by simpa using hc2⟩
  have halpha : pyIsAlpha guess = false := by
    simp [pyIsAlpha, hall]
  unfold make_move
  rw [if_neg (by simp [hover]), if_neg (by simp [halpha])]

/-- Witness for the amended C7: the spec's guess "12" against a fresh
game. -/
theorem c7_witness :
    make_move
      { target := "PERU", guessed_letters := [], attempts_remaining := 3,
        game_over := false, won := false, history := [] } "12"
    = ({ target := "PERU", guessed_letters := [], attempts_remaining := 3,
         game_over := false, won := false, history := [] },
       MoveOutcome.raisedError "Guess must be all letters!") :=
  c7_nonalpha_rejected_unchanged _ "12" rfl ⟨'1', by decide, by decide⟩

/-- Counterexample to C8 as stated: when no active game exists the cached
result need not be absent — `_cache_average_attempts` simply leaves the
cache untouched, so a previously cached average (here 7) survives. -/
theorem c8_counterexample :
    cache_average_attempts
      [{ target := "PERU", guessed_letters := [0, 1, 2, 3], attempts_remaining := 3,
         game_over := true, won := true, history := [] }] (some 7) = some 7 ∧
    some (7 : ℚ) ≠ none := by
  exact ⟨rfl, by simp⟩

/-- C8 amended: when at least one game with `game_over = false` exists,
the computation caches exactly the arithmetic mean of their
attempts_remaining; when none exists no average is produced and the
cache is left unchanged — so the cached result is absent (and never
zero) only if no average was previously cached. -/
theorem c8_mean_or_stale (games : List Game) (cache : Option ℚ) :
    (games.filter (fun g => g.game_over = false) ≠ [] →
      cache_average_attempts games cache =
        some (arithmeticMean ((games.filter (fun g => g.game_over = false)).map
          (fun g => (g.attempts_remaining : ℚ))))) ∧
    (games.filter (fun g => g.game_over = false) = [] →
      cache_average_attempts games cache = cache) := by
  constructor
  · intro h
    have hne : (games.filter (fun g => g.game_over = false)).isEmpty = false :=
      List.isEmpty_eq_false.mpr h
    simp only [cache_average_attempts, hne, Bool.false_eq_true, if_false, arithmeticMean,
      List.length_map]
  · intro h
    have he : (games.filter (fun g => g.game_over = false)).isEmpty = true :=
      List.isEmpty_eq_true.mpr h
    simp only [cache_average_attempts, he, if_true]

/-- Witness for the amended C8: one active game's average is cached; a
list with no active game leaves a stale cache in place. -/
theorem c8_witness :
    cache_average_attempts
      [{ target := "PERU", guessed_letters := [], attempts_remaining := 5,
         game_over := false, won := false, history := [] },
       { target := "CHAD", guessed_letters := [], attempts_remaining := 3,
         game_over := true, won := false, history := [] }] none = some 5 ∧
    cache_average_attempts
      [{ target := "CHAD", guessed_letters := [], attempts_remaining := 3,
         game_over := true, won := false, history := [] }] (some 9) = some 9 := by
  constructor
  · have h := (c8_mean_or_stale
      [{ target := "PERU", guessed_letters := [], attempts_remaining := 5,
         game_over := false, won := false, history := [] },
       { target := "CHAD", guessed_letters := [], attempts_remaining := 3,
         game_over := true, won := false, history := [] }] none).1 (by decide)
    rw [h]
    norm_num [arithmeticMean]
  · exact (c8_mean_or_stale
      [{ target := "CHAD", guessed_letters := [], attempts_remaining := 3,
         game_over := true, won := false, history := [] }] (some 9)).2 (by decide)

/-- C9: for every non-terminal Game, a winning whole-word guess (exactly
equal to the target) transitions to WON without touching
guessed_letters: the guessed positions after the call are exactly those
before it, even when they do not cover the whole target. -/
theorem c9_whole_word_win_preserves_guessed (g : Game) (guess : String)
    (hover : g.game_over = false)
    (halpha : pyIsAlpha guess = true)
    (heq : guess = g.target) :
    (make_move g guess).1.guessed_letters = g.guessed_letters ∧
    (make_move g guess).1.game_over = true ∧
    (make_move g guess).1.won = true := by
  unfold make_move
  rw [if_neg (by simp [hover]), if_pos halpha, if_pos heq]
  exact ⟨rfl, rfl, rfl⟩

/-- Witness for C9: winning "PERU" outright with only position 0 guessed
leaves guessed_letters at [0]. -/
theorem c9_witness :
    (make_move
      { target := "PERU", guessed_letters := [0], attempts_remaining := 3,
        game_over := false, won := false, history := [] } "PERU").1.guessed_letters
      = [0] ∧
    (make_move
      { target := "PERU", guessed_letters := [0], attempts_remaining := 3,
        game_over := false, won := false, history := [] } "PERU").1.game_over = true ∧
    (make_move
      { target := "PERU", guessed_letters := [0], attempts_remaining := 3,
        game_over := false, won := false, history := [] } "PERU").1.won = true :=
  c9_whole_word_win_preserves_guessed _ "PERU" rfl rfl rfl

/-- C10: for every well-formed non-terminal Game, re-guessing a single
letter all of whose match positions in the target are already guessed is
treated as a miss: attempts_remaining drops by 1, and from 1 attempt the
game is LOST — a game can be lost by repeating an already revealed
letter. -/
theorem c10_revealed_reguess_is_miss (g : Game) (guess : String)
    (hok : GameOk g)
    (hover : g.game_over = false)
    (halpha : pyIsAlpha guess = true)
    (hlen : guess.length = 1)
    (hall : ∀ p ∈ g.target.data.enum, p.2 = (guess.data.headD ' ').toUpper →
      p.1 ∈ g.guessed_letters) :
    (make_move g guess).1.attempts_remaining = g.attempts_remaining - 1 ∧
    (g.attempts_remaining = 1 →
      (make_move g guess).1.game_over = true ∧ (make_move g guess).1.won = false) := by
  obtain ⟨-, -, h3, h4, -⟩ := hok
  obtain ⟨-, -, hatt, -, hlost, -⟩ :=
    make_move_miss g guess hover halpha hlen (h3 hover) h4 hall
  refine ⟨hatt, fun h1 => ?_⟩
  have hc : g.attempts_remaining - 1 < 1 := by
    rw [h1]
    norm_num
  obtain ⟨ho, hw, -⟩ := hlost hc
  exact ⟨ho, hw⟩

/-- Witness for C10: with "P" of "PERU" already revealed and one attempt
left, re-guessing "P" loses the game. -/
theorem c10_witness :
    (make_move
      { target := "PERU", guessed_letters := [0], attempts_remaining := 1,
        game_over := false, won := false, history := [] } "P").1.attempts_remaining
      = 0 ∧
    ((1 : Int) = 1 →
      (make_move
        { target := "PERU", guessed_letters := [0], attempts_remaining := 1,
          game_over := false, won := false, history := [] } "P").1.game_over = true ∧
      (make_move
        { target := "PERU", guessed_letters := [0], attempts_remaining := 1,
          game_over := false, won := false, history := [] } "P").1.won = false) :=
  c10_revealed_reguess_is_miss _ "P" (by decide) rfl rfl rfl (by decide)

end Hangman
